import Mathlib

/-!
Shallow embedding of `src/script/hce_utility.py`: a single function
`execute(cmd, cwd=None, env=None)` that spawns a child process with
stderr merged into stdout, reads the merged stream line by line,
decodes each line as UTF-8, echoes it (flushed) to the caller's
standard output, accumulates it, then waits for the child and returns
the tuple `(process.returncode, stderr, stdout)`.

The operating system is modelled as a `World` oracle mapping the spawn
arguments to either a launch failure (the exception `subprocess.Popen`
would raise) or the child's behaviour: the list of byte chunks the
merged stream yields, and the exit code. Observable actions (reads,
prints to stdout, end-of-file, waiting on the child) are recorded in an
event trace. Python's heterogeneous return tuple is modelled as a list
of dynamic values `Val`.
-/

namespace HceUtility

/-- A dynamically typed Python value, as far as this program needs. -/
inductive Val where
  | intV (n : Int)
  | strV (s : String)
  | noneV
deriving DecidableEq, Repr

/-- Errors the call can raise: `Popen` failing to spawn, or
`str(line, 'utf-8')` raising on invalid bytes. -/
inductive ExecError where
  | launchError
  | decodingError
deriving DecidableEq, Repr

/-- Observable actions of one `execute` call, in order. -/
inductive Event where
  | spawn
  | readChunk (bytes : List Nat)
  | printChunk (s : String)
  | eof
  | waitChild
deriving DecidableEq, Repr

/-- Outcome of `subprocess.Popen(cmd, stdout=PIPE, stderr=STDOUT, cwd=cwd, env=env)`:
either the spawn raises, or the child exists and (as observed by this
call) yields a list of line chunks on the merged stream and an exit code. -/
inductive SpawnOutcome where
  | launchFailure
  | spawned (chunks : List (List Nat)) (returncode : Int)

/-- The operating system as an oracle: what spawning a given command,
working directory and environment does. -/
abbrev World := List String → Option String → Option (List (String × String)) → SpawnOutcome

/-- One step of a strict UTF-8 decoder (the behaviour of
`str(line, 'utf-8')`): `pending` continuation bytes still expected,
`acc` the code point accumulated so far, `minCp` the smallest code
point the current sequence may legally encode (overlong rejection),
`out` the characters decoded so far. -/
structure Utf8State where
  pending : Nat
  acc : Nat
  minCp : Nat
  out : List Char
deriving Repr

/-- Feed one byte to the strict UTF-8 decoder. Rejects stray
continuation bytes, overlong forms, surrogates and code points above
U+10FFFF, as Python's strict `utf-8` codec does. -/
def utf8Step (st : Utf8State) (b : Nat) : Option Utf8State :=
  if st.pending = 0 then
    if b < 0x80 then some ⟨0, 0, 0, st.out ++ [Char.ofNat b]⟩
    else if b < 0xC2 then none
    else if b < 0xE0 then some ⟨1, b - 0xC0, 0x80, st.out⟩
    else if b < 0xF0 then some ⟨2, b - 0xE0, 0x800, st.out⟩
    else if b < 0xF5 then some ⟨3, b - 0xF0, 0x10000, st.out⟩
    else none
  else
    if 0x80 ≤ b ∧ b < 0xC0 then
      let acc := st.acc * 64 + (b - 0x80)
      if st.pending = 1 then
        if acc < st.minCp then none
        else if 0xD800 ≤ acc ∧ acc < 0xE000 then none
        else if 0x10FFFF < acc then none
        else some ⟨0, 0, 0, st.out ++ [Char.ofNat acc]⟩
      else some ⟨st.pending - 1, acc, st.minCp, st.out⟩
    else none

/-- `str(bytes, 'utf-8')` as a total function: `some` of the decoded
characters, or `none` when the bytes are not valid UTF-8 (where the
source raises `UnicodeDecodeError`). -/
def utf8Decode (bytes : List Nat) : Option (List Char) :=
  match bytes.foldl (fun ost b => ost.bind (fun st => utf8Step st b)) (some ⟨0, 0, 0, []⟩) with
  | some st => if st.pending = 0 then some st.out else none
  | none => none

/-- The text a chunk decodes to (defaulting to `""` where decoding
fails; only used on chunks known to decode). -/
def decodeText (c : List Nat) : String := String.mk ((utf8Decode c).getD [])

/-- The `for line in process.stdout:` loop of `execute`: for each line,
`fmt_line = str(line, 'utf-8')`; `stdout += fmt_line`;
`print(fmt_line, flush=True, end='')`. Returns the event trace so far
and either the accumulated text or the error that aborted the loop. -/
def runLoop : List (List Nat) → String → List Event → List Event × Except ExecError String
  | [], stdout, evs => (evs ++ [Event.eof], Except.ok stdout)
  | line :: rest, stdout, evs =>
    match utf8Decode line with
    | none => (evs ++ [Event.readChunk line], Except.error ExecError.decodingError)
    | some cs =>
      let fmt_line := String.mk cs
      runLoop rest (stdout ++ fmt_line)
        (evs ++ [Event.readChunk line, Event.printChunk fmt_line])

/-- `execute(cmd, cwd=None, env=None)` from `src/script/hce_utility.py`.
Spawns via the world oracle; on launch failure the exception propagates
at once (no events, no result). Otherwise runs the read loop, then
`stub_stdout, stderr = process.communicate()` — which, stderr having
been merged into stdout at spawn time, yields `stderr = None` — and
returns `process.returncode, stderr, stdout` in that order. -/
def execute (world : World) (cmd : List String) (cwd : Option String)
    (env : Option (List (String × String))) :
    List Event × Except ExecError (List Val) :=
  match world cmd cwd env with
  | SpawnOutcome.launchFailure => ([], Except.error ExecError.launchError)
  | SpawnOutcome.spawned chunks returncode =>
    match runLoop chunks "" [Event.spawn] with
    | (evs, Except.error e) => (evs, Except.error e)
    | (evs, Except.ok stdout) =>
      (evs ++ [Event.waitChild],
       Except.ok [Val.intV returncode, Val.noneV, Val.strV stdout])

/-- The formal parameters of `execute` as written in the source:
name paired with whether the parameter is optional (has a default). -/
def executeParams : List (String × Bool) :=
  [("cmd", false), ("cwd", true), ("env", true)]

/-- The chunks written to the caller's standard output during a call,
in order (the arguments of the `print` invocations). -/
def printTrace (evs : List Event) : List String :=
  evs.filterMap (fun e => match e with | Event.printChunk s => some s | _ => none)

/-- Concatenation of a list of strings, in order. -/
def concatAll : List String → String
  | [] => ""
  | s :: rest => s ++ concatAll rest

/-- The read/print events the loop produces for a list of chunks that
all decode: one `readChunk` then one `printChunk` per chunk, in order. -/
def chunkEventsBody : List (List Nat) → List Event
  | [] => []
  | c :: rest => Event.readChunk c :: Event.printChunk (decodeText c) :: chunkEventsBody rest

/-- A world in which the spawned child prints `hello` followed by a
newline on the merged stream and exits with code 0 (the behaviour of
`["echo", "hello"]`). -/
def echoHelloWorld : World := fun _ _ _ =>
  SpawnOutcome.spawned [[104, 101, 108, 108, 111, 10]] 0

/-- A world in which the spawned child produces no output and exits
with the non-zero code 7. -/
def exit7World : World := fun _ _ _ => SpawnOutcome.spawned [] 7

/-- A world in which spawning fails (nonexistent executable or invalid
working directory): `Popen` raises. -/
def noSuchCmdWorld : World := fun _ _ _ => SpawnOutcome.launchFailure

/-- A world in which the child emits one valid line `a\n` and then a
chunk `[0xFF]` that is not valid UTF-8. -/
def badBytesWorld : World := fun _ _ _ =>
  SpawnOutcome.spawned [[97, 10], [255]] 0

instance {e a : Type} [DecidableEq e] [DecidableEq a] : DecidableEq (Except e a) :=
  fun x y =>
    match x, y with
    | Except.ok u, Except.ok v =>
      if h : u = v then Decidable.isTrue (by rw [h])
      else Decidable.isFalse (by intro hc; injection hc; contradiction)
    | Except.error u, Except.error v =>
      if h : u = v then Decidable.isTrue (by rw [h])
      else Decidable.isFalse (by intro hc; injection hc; contradiction)
    | Except.ok _, Except.error _ => Decidable.isFalse (by intro hc; injection hc)
    | Except.error _, Except.ok _ => Decidable.isFalse (by intro hc; injection hc)

theorem runLoop_ok (chunks : List (List Nat))
    (h : ∀ c ∈ chunks, (utf8Decode c).isSome) (acc : String) (evs : List Event) :
    runLoop chunks acc evs =
      (evs ++ chunkEventsBody chunks ++ [Event.eof],
       Except.ok (acc ++ concatAll (List.map decodeText chunks))) := by
  induction chunks generalizing acc evs with
  | nil => simp [runLoop, chunkEventsBody, concatAll, String.append_empty]
  | cons c rest ih =>
    obtain ⟨cs, hcs⟩ := Option.isSome_iff_exists.mp (h c (List.mem_cons_self c rest))
    have hrest : ∀ x ∈ rest, (utf8Decode x).isSome :=
      fun x hx => h x (List.mem_cons_of_mem c hx)
    have hdt : decodeText c = String.mk cs := by simp [decodeText, hcs]
    simp only [runLoop, hcs]
    rw [ih hrest]
    simp [chunkEventsBody, concatAll, hdt, String.append_assoc, List.append_assoc]

theorem runLoop_err (pre : List (List Nat)) (bad : List Nat) (rest : List (List Nat))
    (hpre : ∀ c ∈ pre, (utf8Decode c).isSome) (hbad : utf8Decode bad = none)
    (acc : String) (evs : List Event) :
    runLoop (pre ++ bad :: rest) acc evs =
      (evs ++ chunkEventsBody pre ++ [Event.readChunk bad],
       Except.error ExecError.decodingError) := by
  induction pre generalizing acc evs with
  | nil => simp [runLoop, hbad, chunkEventsBody]
  | cons c pre2 ih =>
    obtain ⟨cs, hcs⟩ := Option.isSome_iff_exists.mp (hpre c (List.mem_cons_self c pre2))
    have hpre2 : ∀ x ∈ pre2, (utf8Decode x).isSome :=
      fun x hx => hpre x (List.mem_cons_of_mem c hx)
    have hdt : decodeText c = String.mk cs := by simp [decodeText, hcs]
    simp only [List.cons_append, runLoop, hcs, List.append_eq]
    rw [ih hpre2]
    simp [chunkEventsBody, hdt, List.append_assoc]

theorem execute_spawned (world : World) (cmd : List String) (cwd : Option String)
    (env : Option (List (String × String))) (chunks : List (List Nat)) (code : Int)
    (hspawn : world cmd cwd env = SpawnOutcome.spawned chunks code)
    (hdec : ∀ c ∈ chunks, (utf8Decode c).isSome) :
    execute world cmd cwd env =
      (Event.spawn :: (chunkEventsBody chunks ++ [Event.eof, Event.waitChild]),
       Except.ok [Val.intV code, Val.noneV,
         Val.strV (concatAll (List.map decodeText chunks))]) := by
  have hrl := runLoop_ok chunks hdec "" [Event.spawn]
  simp only [execute, hspawn, hrl]
  simp [String.empty_append, List.append_assoc]

theorem execute_decode_err (world : World) (cmd : List String) (cwd : Option String)
    (env : Option (List (String × String))) (pre : List (List Nat)) (bad : List Nat)
    (rest : List (List Nat)) (code : Int)
    (hspawn : world cmd cwd env = SpawnOutcome.spawned (pre ++ bad :: rest) code)
    (hpre : ∀ c ∈ pre, (utf8Decode c).isSome) (hbad : utf8Decode bad = none) :
    execute world cmd cwd env =
      (Event.spawn :: (chunkEventsBody pre ++ [Event.readChunk bad]),
       Except.error ExecError.decodingError) := by
  have hrl := runLoop_err pre bad rest hpre hbad "" [Event.spawn]
  simp only [execute, hspawn, hrl]
  simp [List.append_assoc]

theorem printTrace_append (a b : List Event) :
    printTrace (a ++ b) = printTrace a ++ printTrace b :=
  List.filterMap_append a b _

theorem printTrace_body (chunks : List (List Nat)) :
    printTrace (chunkEventsBody chunks) = List.map decodeText chunks := by
  induction chunks with
  | nil => simp [chunkEventsBody, printTrace]
  | cons c rest ih =>
    simp [chunkEventsBody, printTrace, List.filterMap_cons] at ih ⊢
    exact ih

theorem chunkEventsBody_shape (chunks : List (List Nat)) :
    ∀ e ∈ chunkEventsBody chunks,
      (∃ c, e = Event.readChunk c) ∨ ∃ s, e = Event.printChunk s := by
  induction chunks with
  | nil => simp [chunkEventsBody]
  | cons c rest ih =>
    intro e he
    simp only [chunkEventsBody, List.mem_cons] at he
    rcases he with h | h | h
    · exact Or.inl ⟨c, h⟩
    · exact Or.inr ⟨decodeText c, h⟩
    · exact ih e h

theorem printTrace_spawn_cons (evs : List Event) :
    printTrace (Event.spawn :: evs) = printTrace evs := by
  simp [printTrace, List.filterMap_cons]

theorem printTrace_end_events :
    printTrace [Event.eof, Event.waitChild] = [] := by
  simp [printTrace, List.filterMap_cons]

theorem printTrace_read_single (bs : List Nat) :
    printTrace [Event.readChunk bs] = [] := by
  simp [printTrace, List.filterMap_cons]

theorem printTrace_execute (world : World) (cmd : List String) (cwd : Option String)
    (env : Option (List (String × String))) (chunks : List (List Nat)) (code : Int)
    (hspawn : world cmd cwd env = SpawnOutcome.spawned chunks code)
    (hdec : ∀ c ∈ chunks, (utf8Decode c).isSome) :
    printTrace (execute world cmd cwd env).1 = List.map decodeText chunks := by
  rw [execute_spawned world cmd cwd env chunks code hspawn hdec]
  simp [printTrace_spawn_cons, printTrace_append, printTrace_body, printTrace_end_events]

/-- C1: for every valid command whose child process runs to completion with
exit code `code` (non-zero codes included) and whose output decodes, `execute`
returns `code` as the first component of an ordinary successful result: no
error is raised, a non-zero exit code is never treated as a failure. -/
theorem C1_exit_code_is_ordinary_data (world : World) (cmd : List String)
    (cwd : Option String) (env : Option (List (String × String)))
    (chunks : List (List Nat)) (code : Int)
    (hspawn : world cmd cwd env = SpawnOutcome.spawned chunks code)
    (hdec : ∀ c ∈ chunks, (utf8Decode c).isSome) :
    ∃ out : String, (execute world cmd cwd env).2 =
      Except.ok [Val.intV code, Val.noneV, Val.strV out] := by
  refine ⟨concatAll (List.map decodeText chunks), ?_⟩
  rw [execute_spawned world cmd cwd env chunks code hspawn hdec]

theorem C1_witness :
    ∃ out : String, (execute exit7World ["false"] none none).2 =
      Except.ok [Val.intV 7, Val.noneV, Val.strV out] :=
  C1_exit_code_is_ordinary_data exit7World ["false"] none none [] 7 rfl (by decide)

/-- C2 counterexample: on the `["echo", "hello"]` scenario the call returns
`(exit code, error-capture field, accumulated buffer)` — the buffer is the
THIRD component and the (always-`None`) error field the SECOND, not the other
way round as the claim orders them. -/
theorem C2_counterexample :
    (execute echoHelloWorld ["echo", "hello"] none none).2 =
      Except.ok [Val.intV 0, Val.noneV, Val.strV "hello\n"] ∧
    (execute echoHelloWorld ["echo", "hello"] none none).2 ≠
      Except.ok [Val.intV 0, Val.strV "hello\n", Val.noneV] := by
  constructor
  · decide
  · decide

/-- C2 (amended): for every call that runs a child to completion, `execute`
returns exactly three components, in this order: the exit code, the
empty/unused error-capture field (`None`), and the full accumulated output
buffer. -/
theorem C2_result_components_in_order (world : World) (cmd : List String)
    (cwd : Option String) (env : Option (List (String × String)))
    (chunks : List (List Nat)) (code : Int)
    (hspawn : world cmd cwd env = SpawnOutcome.spawned chunks code)
    (hdec : ∀ c ∈ chunks, (utf8Decode c).isSome) :
    (execute world cmd cwd env).2 =
      Except.ok [Val.intV code, Val.noneV,
        Val.strV (concatAll (List.map decodeText chunks))] := by
  rw [execute_spawned world cmd cwd env chunks code hspawn hdec]

theorem C2_witness :
    (execute echoHelloWorld ["echo", "hello"] none none).2 =
      Except.ok [Val.intV 0, Val.noneV,
        Val.strV (concatAll (List.map decodeText [[104, 101, 108, 108, 111, 10]]))] :=
  C2_result_components_in_order echoHelloWorld ["echo", "hello"] none none
    [[104, 101, 108, 108, 111, 10]] 0 rfl (by decide)

/-- C3: for every call that runs a child to completion, the output sink (the
flushed, unmodified `print` to the caller's standard output) is invoked
exactly once per chunk, in chunk order, and the concatenation of the
arguments of all sink invocations equals the accumulated output returned by
`execute`. -/
theorem C3_sink_once_per_chunk (world : World) (cmd : List String)
    (cwd : Option String) (env : Option (List (String × String)))
    (chunks : List (List Nat)) (code : Int)
    (hspawn : world cmd cwd env = SpawnOutcome.spawned chunks code)
    (hdec : ∀ c ∈ chunks, (utf8Decode c).isSome) :
    printTrace (execute world cmd cwd env).1 = List.map decodeText chunks ∧
    (execute world cmd cwd env).2 =
      Except.ok [Val.intV code, Val.noneV,
        Val.strV (concatAll (printTrace (execute world cmd cwd env).1))] := by
  have hp := printTrace_execute world cmd cwd env chunks code hspawn hdec
  refine ⟨hp, ?_⟩
  rw [hp, execute_spawned world cmd cwd env chunks code hspawn hdec]

theorem C3_witness :
    printTrace (execute echoHelloWorld ["echo", "hello"] none none).1 =
      List.map decodeText [[104, 101, 108, 108, 111, 10]] ∧
    (execute echoHelloWorld ["echo", "hello"] none none).2 =
      Except.ok [Val.intV 0, Val.noneV,
        Val.strV (concatAll
          (printTrace (execute echoHelloWorld ["echo", "hello"] none none).1))] :=
  C3_sink_once_per_chunk echoHelloWorld ["echo", "hello"] none none
    [[104, 101, 108, 108, 111, 10]] 0 rfl (by decide)

/-- C4: for every command that cannot be launched (nonexistent executable,
invalid working directory), `execute` fails with a launch error reported
immediately and produces no partial result: no event happens and no component
of a result is returned. -/
theorem C4_launch_error_no_partial_result (world : World) (cmd : List String)
    (cwd : Option String) (env : Option (List (String × String)))
    (h : world cmd cwd env = SpawnOutcome.launchFailure) :
    execute world cmd cwd env = ([], Except.error ExecError.launchError) := by
  simp [execute, h]

theorem C4_witness :
    execute noSuchCmdWorld ["no-such-executable"] (some "/no/such/dir") none =
      ([], Except.error ExecError.launchError) :=
  C4_launch_error_no_partial_result noSuchCmdWorld ["no-such-executable"]
    (some "/no/such/dir") none rfl

/-- C5: every chunk read from the merged stream is decoded as UTF-8, and if
some chunk is not valid UTF-8 the whole call fails with a decoding error
rather than returning a result. -/
theorem C5_invalid_utf8_fails_call (world : World) (cmd : List String)
    (cwd : Option String) (env : Option (List (String × String)))
    (pre : List (List Nat)) (bad : List Nat) (rest : List (List Nat)) (code : Int)
    (hspawn : world cmd cwd env = SpawnOutcome.spawned (pre ++ bad :: rest) code)
    (hpre : ∀ c ∈ pre, (utf8Decode c).isSome) (hbad : utf8Decode bad = none) :
    (execute world cmd cwd env).2 = Except.error ExecError.decodingError := by
  rw [execute_decode_err world cmd cwd env pre bad rest code hspawn hpre hbad]

theorem C5_witness :
    (execute badBytesWorld ["cat", "somefile"] none none).2 =
      Except.error ExecError.decodingError :=
  C5_invalid_utf8_fails_call badBytesWorld ["cat", "somefile"] none none
    [[97, 10]] [255] [] 0 rfl (by decide) (by decide)

/-- C6: for every call that runs a child to completion, the event trace ends
with end-of-file followed by waiting on the child, in that order, neither
occurring earlier; every read of the stream happens before that tail, so the
call returns only after the stream is fully drained and the child has been
waited for. -/
theorem C6_drain_to_eof_then_wait (world : World) (cmd : List String)
    (cwd : Option String) (env : Option (List (String × String)))
    (chunks : List (List Nat)) (code : Int)
    (hspawn : world cmd cwd env = SpawnOutcome.spawned chunks code)
    (hdec : ∀ c ∈ chunks, (utf8Decode c).isSome) :
    ∃ pre, (execute world cmd cwd env).1 = pre ++ [Event.eof, Event.waitChild] ∧
      Event.eof ∉ pre ∧ Event.waitChild ∉ pre ∧
      ∀ bs, Event.readChunk bs ∈ (execute world cmd cwd env).1 →
        Event.readChunk bs ∈ pre := by
  have he := execute_spawned world cmd cwd env chunks code hspawn hdec
  refine ⟨Event.spawn :: chunkEventsBody chunks, ?_, ?_, ?_, ?_⟩
  · rw [he]; simp
  · intro hmem
    rcases List.mem_cons.mp hmem with h | h
    · exact Event.noConfusion h
    · rcases chunkEventsBody_shape chunks _ h with ⟨c, hc⟩ | ⟨s, hs⟩
      · exact Event.noConfusion hc
      · exact Event.noConfusion hs
  · intro hmem
    rcases List.mem_cons.mp hmem with h | h
    · exact Event.noConfusion h
    · rcases chunkEventsBody_shape chunks _ h with ⟨c, hc⟩ | ⟨s, hs⟩
      · exact Event.noConfusion hc
      · exact Event.noConfusion hs
  · intro bs hmem
    rw [he] at hmem
    rcases List.mem_cons.mp hmem with h | h
    · exact Event.noConfusion h
    · rcases List.mem_append.mp h with h2 | h2
      · exact List.mem_cons_of_mem _ h2
      · rcases List.mem_cons.mp h2 with h3 | h3
        · exact Event.noConfusion h3
        · rcases List.mem_cons.mp h3 with h4 | h4
          · exact Event.noConfusion h4
          · exact absurd h4 (List.not_mem_nil _)

theorem C6_witness :
    ∃ pre, (execute echoHelloWorld ["echo", "hello"] none none).1 =
        pre ++ [Event.eof, Event.waitChild] ∧
      Event.eof ∉ pre ∧ Event.waitChild ∉ pre ∧
      ∀ bs, Event.readChunk bs ∈ (execute echoHelloWorld ["echo", "hello"] none none).1 →
        Event.readChunk bs ∈ pre :=
  C6_drain_to_eof_then_wait echoHelloWorld ["echo", "hello"] none none
    [[104, 101, 108, 108, 111, 10]] 0 rfl (by decide)

/-- C7 counterexample: the source signature of `execute` is
`execute(cmd, cwd=None, env=None)` — three formal parameters, none of them an
output sink, so the call surface does not consist of four inputs. -/
theorem C7_counterexample :
    executeParams.length ≠ 4 ∧ ∀ p ∈ executeParams, p.1 ≠ "sink" := by
  decide

/-- C7 (amended): the call surface of `execute` consists of exactly three
inputs — a Command, an optional working directory, and an optional
environment mapping; there is no output-sink parameter, and the echo of each
chunk to the caller's standard output is hardwired, happening identically on
every successful call. -/
theorem C7_call_surface_three_inputs (world : World) (cmd : List String)
    (cwd : Option String) (env : Option (List (String × String)))
    (chunks : List (List Nat)) (code : Int)
    (hspawn : world cmd cwd env = SpawnOutcome.spawned chunks code)
    (hdec : ∀ c ∈ chunks, (utf8Decode c).isSome) :
    executeParams.length = 3 ∧ (∀ p ∈ executeParams, p.1 ≠ "sink") ∧
    printTrace (execute world cmd cwd env).1 = List.map decodeText chunks :=
  ⟨by decide, by decide,
   printTrace_execute world cmd cwd env chunks code hspawn hdec⟩

theorem C7_witness :
    executeParams.length = 3 ∧ (∀ p ∈ executeParams, p.1 ≠ "sink") ∧
    printTrace (execute exit7World ["false"] none none).1 =
      List.map decodeText [] :=
  C7_call_surface_three_inputs exit7World ["false"] none none [] 7 rfl (by decide)

/-- C8: for the command `["echo", "hello"]` (child prints `hello\n`, exits 0)
with the default sink, `execute` returns exit code 0 and accumulated output
`"hello\n"`. -/
theorem C8_echo_hello_scenario :
    (execute echoHelloWorld ["echo", "hello"] none none).2 =
      Except.ok [Val.intV 0, Val.noneV, Val.strV "hello\n"] := by
  decide

/-- C9: for every call that returns, the separately returned error-stream
component (the second component of the result tuple) is always `None`, never
a possibly non-empty string: stderr was merged into stdout at spawn time, so
`communicate()` yields no error content for any child. -/
theorem C9_error_component_always_none (world : World) (cmd : List String)
    (cwd : Option String) (env : Option (List (String × String))) (vals : List Val)
    (h : (execute world cmd cwd env).2 = Except.ok vals) :
    vals.get? 1 = some Val.noneV := by
  cases hw : world cmd cwd env with
  | launchFailure =>
    simp only [execute, hw] at h
    exact absurd h (by simp)
  | spawned chunks code =>
    rcases hr : runLoop chunks "" [Event.spawn] with ⟨evs, r⟩
    cases r with
    | error e =>
      simp only [execute, hw, hr] at h
      exact absurd h (by simp)
    | ok s =>
      simp only [execute, hw, hr, Except.ok.injEq] at h
      rw [← h]
      rfl

theorem C9_witness :
    ([Val.intV 0, Val.noneV, Val.strV "hello\n"] : List Val).get? 1 =
      some Val.noneV :=
  C9_error_component_always_none echoHelloWorld ["echo", "hello"] none none
    [Val.intV 0, Val.noneV, Val.strV "hello\n"] (by decide)

/-- C10: when a decoding failure occurs on chunk `bad`, every chunk before it
has already been written to standard output by the sink, in order, before the
failure propagates; the call yields no result, but the sink's side effects
are not undone. -/
theorem C10_sink_effects_survive_failure (world : World) (cmd : List String)
    (cwd : Option String) (env : Option (List (String × String)))
    (pre : List (List Nat)) (bad : List Nat) (rest : List (List Nat)) (code : Int)
    (hspawn : world cmd cwd env = SpawnOutcome.spawned (pre ++ bad :: rest) code)
    (hpre : ∀ c ∈ pre, (utf8Decode c).isSome) (hbad : utf8Decode bad = none) :
    printTrace (execute world cmd cwd env).1 = List.map decodeText pre ∧
    (execute world cmd cwd env).2 = Except.error ExecError.decodingError := by
  rw [execute_decode_err world cmd cwd env pre bad rest code hspawn hpre hbad]
  constructor
  · simp [printTrace_spawn_cons, printTrace_append, printTrace_body,
      printTrace_read_single]
  · rfl

theorem C10_witness :
    printTrace (execute badBytesWorld ["cat", "otherfile"] none none).1 =
      List.map decodeText [[97, 10]] ∧
    (execute badBytesWorld ["cat", "otherfile"] none none).2 =
      Except.error ExecError.decodingError :=
  C10_sink_effects_survive_failure badBytesWorld ["cat", "otherfile"] none none
    [[97, 10]] [255] [] 0 rfl (by decide) (by decide)

end HceUtility
